import Mathlib

/-!
Verification of the reservation-voice-agent repository.

Part 1: shallow embedding of the contract validators in
`src/libs/api-contracts/typescript/schemas.ts` (Zod schemas) and the CHECK
constraints in `src/infrastructure/docker/init.sql`.

JSON strings are modelled as Lean `String`, JSON numbers as `Rat`
(JavaScript numbers; the `.int()` refinement checks integrality), a field
that may be absent as an outer `Option`, and a nullable value as an inner
`Option` (`none` = JSON null).
-/

/-- `z.string()` accepts every string. -/
def zString (_s : String) : Bool := true

/-- A decimal digit, as matched by `\d`. -/
def isDig (c : Char) : Bool := '0' ≤ c && c ≤ '9'

/-- A hexadecimal digit, either case (the character class of Zod's uuid regex). -/
def isHexDig (c : Char) : Bool :=
  isDig c || ('a' ≤ c && c ≤ 'f') || ('A' ≤ c && c ≤ 'F')

/-- `z.string().uuid()`: 8-4-4-4-12 hexadecimal groups separated by hyphens. -/
def isUuid (s : String) : Bool :=
  let cs := s.toList
  cs.length == 36 &&
  (List.range 36).all (fun i =>
    if i == 8 || i == 13 || i == 18 || i == 23 then cs.getD i ' ' == '-'
    else isHexDig (cs.getD i ' '))

/-- The regex `^\d{4}-\d{2}-\d{2}$` from `schemas.ts` (date-shaped string). -/
def matchesDateShape (s : String) : Bool :=
  match s.toList with
  | [y1,y2,y3,y4,'-',m1,m2,'-',d1,d2] => [y1,y2,y3,y4,m1,m2,d1,d2].all isDig
  | _ => false

/-- The regex `^\d{2}:\d{2}$` from `schemas.ts` (time-shaped string). -/
def matchesTimeShape (s : String) : Bool :=
  match s.toList with
  | [h1,h2,':',n1,n2] => [h1,h2,n1,n2].all isDig
  | _ => false

/-- A field that may be absent: `none` = key absent, `some v` = key present. -/
def checkOpt (chk : α → Bool) : Option α → Bool
  | none => true
  | some v => chk v

/-- A nullable value: `none` = JSON null (accepted), `some v` = value checked. -/
def checkNullable (chk : α → Bool) : Option α → Bool
  | none => true
  | some v => chk v

/-- `CallStatusSchema` (`schemas.ts:105`): `z.enum(["ongoing", "completed", "failed"])`. -/
def CallStatusSchema (s : String) : Bool :=
  s == "ongoing" || s == "completed" || s == "failed"

/-- The `CHECK (status IN ('ongoing', 'completed', 'failed'))` constraint on
`calls.status` (`init.sql:64`). -/
def callsStatusCheck (s : String) : Bool :=
  s == "ongoing" || s == "completed" || s == "failed"

/-- `ReservationStatusSchema` (`schemas.ts:141`). -/
def ReservationStatusSchema (s : String) : Bool :=
  s == "confirmed" || s == "cancelled" || s == "completed" || s == "no_show"

/-- The party-size refinement of `ReservationCreateSchema` (`schemas.ts:155`):
`z.number().int().min(1).max(20)`. -/
def reservationCreatePartySize (q : Rat) : Bool :=
  q.isInt && decide ((1 : Rat) ≤ q) && decide (q ≤ (20 : Rat))

/-- The party-size refinement of `ReservationRequestCreateSchema` (`schemas.ts:63`):
`z.number().int().min(1).max(20)`. -/
def reservationRequestCreatePartySize (q : Rat) : Bool :=
  q.isInt && decide ((1 : Rat) ≤ q) && decide (q ≤ (20 : Rat))

/-- `CHECK (party_size > 0 AND party_size <= 20)` on `reservations.party_size`
(`init.sql:80`), over the INT column value. -/
def reservationsPartySizeCheck (n : Int) : Bool :=
  decide (0 < n) && decide (n ≤ 20)

/-- `CHECK (party_size > 0 AND party_size <= 20)` on
`reservation_requests.party_size` (`init.sql:35`). -/
def reservationRequestsPartySizeCheck (n : Int) : Bool :=
  decide (0 < n) && decide (n ≤ 20)

/-- Input shape for `ReservationRequestCreateSchema` (`schemas.ts:61`). -/
structure ReservationRequestCreateRaw where
  user_id : Option (Option String)
  party_size : Rat
  requested_date : String
  time_range_start : String
  time_range_end : String
  special_requests : Option (Option String)
  contact_phone : Option (Option String)
  deriving DecidableEq, Repr

/-- `ReservationRequestCreateSchema.parse` succeeds (`schemas.ts:61`). -/
def ReservationRequestCreateSchema (r : ReservationRequestCreateRaw) : Bool :=
  checkOpt (checkNullable isUuid) r.user_id &&
  reservationRequestCreatePartySize r.party_size &&
  matchesDateShape r.requested_date &&
  matchesTimeShape r.time_range_start &&
  matchesTimeShape r.time_range_end &&
  checkOpt (checkNullable zString) r.special_requests &&
  checkOpt (checkNullable zString) r.contact_phone

/-- Input shape for `ReservationCreateSchema` (`schemas.ts:149`). -/
structure ReservationCreateRaw where
  call_id : String
  request_id : Option (Option String)
  restaurant_id : Option (Option String)
  user_id : Option (Option String)
  restaurant_name : String
  party_size : Rat
  confirmed_date : String
  confirmed_time : String
  confirmation_code : Option (Option String)
  status : Option String
  notes : Option (Option String)
  deriving DecidableEq, Repr

/-- `ReservationCreateSchema.parse` succeeds (`schemas.ts:149`); the `status`
field carries `.default("confirmed")`, so an absent status is accepted. -/
def ReservationCreateSchema (r : ReservationCreateRaw) : Bool :=
  isUuid r.call_id &&
  checkOpt (checkNullable isUuid) r.request_id &&
  checkOpt (checkNullable isUuid) r.restaurant_id &&
  checkOpt (checkNullable isUuid) r.user_id &&
  zString r.restaurant_name &&
  reservationCreatePartySize r.party_size &&
  matchesDateShape r.confirmed_date &&
  matchesTimeShape r.confirmed_time &&
  checkOpt (checkNullable zString) r.confirmation_code &&
  checkOpt ReservationStatusSchema r.status &&
  checkOpt (checkNullable zString) r.notes

/-- Input shape for `CallUpdateSchema` (`schemas.ts:129`): every field optional. -/
structure CallUpdateRaw where
  status : Option String
  failure_reason : Option (Option String)
  duration_seconds : Option (Option Rat)
  transcript_summary : Option (Option String)
  deriving DecidableEq, Repr

/-- Parsed output of `CallUpdateSchema` (`schemas.ts:129`): `duration_seconds`
has passed the `.int()` refinement. -/
structure CallUpdateParsed where
  status : Option String
  failure_reason : Option (Option String)
  duration_seconds : Option (Option Int)
  transcript_summary : Option (Option String)
  deriving DecidableEq, Repr

/-- The `status: CallStatusSchema.optional()` field of `CallUpdateSchema`
(`schemas.ts:130`): absent stays absent, present must satisfy the enum. -/
def parseStatusField : Option String → Option (Option String)
  | none => some none
  | some st => if CallStatusSchema st then some (some st) else none

/-- The `duration_seconds: z.number().int().nullable().optional()` field of
`CallUpdateSchema` (`schemas.ts:132`): absent stays absent, null stays null,
a present number must be an integer. -/
def parseDurationField : Option (Option Rat) → Option (Option (Option Int))
  | none => some none
  | some none => some (some none)
  | some (some q) => if q.isInt then some (some (some q.num)) else none

/-- `CallUpdateSchema.parse` (`schemas.ts:129`): each field is validated
independently; the nullable-optional string fields pass through unchanged. -/
def CallUpdateSchema (r : CallUpdateRaw) : Option CallUpdateParsed :=
  (parseStatusField r.status).bind fun st =>
  (parseDurationField r.duration_seconds).bind fun du =>
  some ⟨st, r.failure_reason, du, r.transcript_summary⟩

/-- Days in a Gregorian month (claim-side notion of a real calendar date). -/
def daysInMonth (y m : Nat) : Nat :=
  if m == 2 then
    if (y % 4 == 0 && y % 100 != 0) || y % 400 == 0 then 29 else 28
  else if m == 4 || m == 6 || m == 9 || m == 11 then 30
  else 31

/-- Numeric value of a decimal digit character. -/
def digVal (c : Char) : Nat := c.toNat - 48

/-- A date-shaped string that is also a real Gregorian calendar date. -/
def isRealCalendarDate (s : String) : Bool :=
  match s.toList with
  | [y1,y2,y3,y4,'-',m1,m2,'-',d1,d2] =>
      if [y1,y2,y3,y4,m1,m2,d1,d2].all isDig then
        let y := 1000 * digVal y1 + 100 * digVal y2 + 10 * digVal y3 + digVal y4
        let m := 10 * digVal m1 + digVal m2
        let d := 10 * digVal d1 + digVal d2
        decide (1 ≤ m) && decide (m ≤ 12) && decide (1 ≤ d) && decide (d ≤ daysInMonth y m)
      else false
  | _ => false

/-- A time-shaped string that is a real time of day (hour < 24, minute < 60). -/
def isValidTimeOfDay (s : String) : Bool :=
  match s.toList with
  | [h1,h2,':',n1,n2] =>
      if [h1,h2,n1,n2].all isDig then
        decide (10 * digVal h1 + digVal h2 < 24) && decide (10 * digVal n1 + digVal n2 < 60)
      else false
  | _ => false

/-- C8: the party-size constraint is stated identically in the TypeScript
contract schemas and the SQL schema: both create schemas use the same check,
both SQL CHECK constraints use the same check, a number passes the Zod check
exactly when it is an integer `n` with the SQL check `0 < n ∧ n ≤ 20`, and any
input accepted by either create schema has a party size passing the check. -/
theorem party_size_contract_matches_sql :
    (∀ q : Rat, reservationCreatePartySize q = reservationRequestCreatePartySize q) ∧
    (∀ n : Int, reservationsPartySizeCheck n = reservationRequestsPartySizeCheck n) ∧
    (∀ q : Rat, reservationCreatePartySize q = true ↔
      ∃ n : Int, q = (n : Rat) ∧ reservationsPartySizeCheck n = true) ∧
    (∀ r : ReservationCreateRaw, ReservationCreateSchema r = true →
      reservationCreatePartySize r.party_size = true) ∧
    (∀ r : ReservationRequestCreateRaw, ReservationRequestCreateSchema r = true →
      reservationRequestCreatePartySize r.party_size = true) := by
  refine ⟨fun q => rfl, fun n => rfl, fun q => ?_, fun r h => ?_, fun r h => ?_⟩
  · constructor
    · intro h
      simp only [reservationCreatePartySize, Bool.and_eq_true, decide_eq_true_eq] at h
      obtain ⟨⟨hint, h1⟩, h20⟩ := h
      refine ⟨q.num, (Rat.eq_num_of_isInt hint), ?_⟩
      have hq : q = (q.num : Rat) := Rat.eq_num_of_isInt hint
      rw [hq] at h1 h20
      simp only [reservationsPartySizeCheck, Bool.and_eq_true, decide_eq_true_eq]
      constructor
      · exact_mod_cast lt_of_lt_of_le zero_lt_one (by exact_mod_cast h1)
      · exact_mod_cast h20
    · rintro ⟨n, rfl, hn⟩
      simp only [reservationsPartySizeCheck, Bool.and_eq_true, decide_eq_true_eq] at hn
      simp only [reservationCreatePartySize, Bool.and_eq_true, decide_eq_true_eq]
      refine ⟨⟨?_, ?_⟩, ?_⟩
      · simp [Rat.isInt, Rat.den_intCast]
      · exact_mod_cast hn.1
      · exact_mod_cast hn.2
  · simp only [ReservationCreateSchema, Bool.and_eq_true] at h
    exact h.1.1.1.1.1.2
  · simp only [ReservationRequestCreateSchema, Bool.and_eq_true] at h
    exact h.1.1.1.1.1.2

/-- Witness for C8 at the concrete party size 3. -/
theorem party_size_contract_matches_sql_witness :
    reservationCreatePartySize ((3 : Int) : Rat) = true :=
  (party_size_contract_matches_sql.2.2.1 ((3 : Int) : Rat)).mpr ⟨3, rfl, by decide⟩

/-- C9: the date/time fields are validated only by shape: a concrete
reservation-request input and a concrete reservation input are accepted whose
date "2026-13-45" matches the date regex but is not a real calendar date and
whose time "25:99" matches the time regex but is not a valid time of day. -/
theorem date_time_shape_only_validation :
    ReservationRequestCreateSchema
      ⟨none, 2, "2026-13-45", "25:99", "25:99", none, none⟩ = true ∧
    ReservationCreateSchema
      ⟨"00000000-0000-0000-0000-000000000000", none, none, none, "Cafe", 2,
        "2026-13-45", "25:99", none, none, none⟩ = true ∧
    matchesDateShape "2026-13-45" = true ∧
    isRealCalendarDate "2026-13-45" = false ∧
    matchesTimeShape "25:99" = true ∧
    isValidTimeOfDay "25:99" = false := by
  decide

/-- C10: every field of `CallUpdateSchema` is optional: parsing the empty
object succeeds with every field absent, and any field absent in an accepted
input is absent in the parsed result. -/
theorem call_update_all_fields_optional :
    CallUpdateSchema ⟨none, none, none, none⟩ = some ⟨none, none, none, none⟩ ∧
    (∀ (r : CallUpdateRaw) (p : CallUpdateParsed), CallUpdateSchema r = some p →
      (r.status = none → p.status = none) ∧
      (r.failure_reason = none → p.failure_reason = none) ∧
      (r.duration_seconds = none → p.duration_seconds = none) ∧
      (r.transcript_summary = none → p.transcript_summary = none)) := by
  constructor
  · rfl
  · rintro ⟨st, fr, du, ts⟩ p h
    simp only [CallUpdateSchema, Option.bind_eq_some, Option.some.injEq] at h
    obtain ⟨st', hst, du', hdu, hp⟩ := h
    subst hp
    refine ⟨fun hstn => ?_, fun hfr => hfr, fun hdun => ?_, fun hts => hts⟩
    · subst hstn
      simp only [parseStatusField, Option.some.injEq] at hst
      exact hst.symm
    · subst hdun
      simp only [parseDurationField, Option.some.injEq] at hdu
      exact hdu.symm

/-- Witness for C10: the empty update parses and its hypotheses hold at the
all-absent input. -/
theorem call_update_all_fields_optional_witness :
    (⟨none, none, none, none⟩ : CallUpdateParsed).status = none :=
  (call_update_all_fields_optional.2 ⟨none, none, none, none⟩ ⟨none, none, none, none⟩
    call_update_all_fields_optional.1).1 rfl

/-!
Part 2: the Call Relay Engine. The engine itself (voice-engine application
code) is not present under `src/`; the definitions below are modelled from
the specification (spec.md sections 2-5, 7 and 9) and are marked as such.
-/

namespace Relay

/-- Modelled from the spec: Call Session lifecycle states (spec 4.1);
the session code (`apps/voice-engine`) is missing from the sources. -/
inductive LifecycleState
  | Connecting
  | Active
  | Draining
  | Terminated
  deriving DecidableEq, Repr

/-- Modelled from the spec: TurnState enum (spec 3); the Turn Controller
code is missing from the sources. -/
inductive TurnState
  | CallerSpeaking
  | AgentSpeaking
  | Idle
  deriving DecidableEq, Repr

/-- Modelled from the spec: the terminal audit fact for a call (spec 3). -/
inductive CallOutcome
  | completedWithResult
  | completedWithoutResult
  | failed (reason : String)
  deriving DecidableEq, Repr

/-- Modelled from the spec: an audio frame tagged with its encoding (spec 3). -/
structure FrameData where
  samples : List Int
  rate : Nat
  deriving DecidableEq, Repr

/-- An agent audio frame queued toward the carrier, tagged with a unique
per-session sequence number (the generation-counter design of spec 9). -/
structure TaggedFrame where
  seq : Nat
  payload : FrameData
  deriving DecidableEq, Repr

/-- Modelled from the spec: a structured tool invocation from the model
stream (spec 3); the dispatcher code is missing from the sources. -/
structure ToolInvocation where
  id : String
  name : String
  args : List (String × String)
  deriving DecidableEq, Repr

/-- Modelled from the spec: structured dispatch results (spec 4.4):
success, handler failure with a human-readable reason, or unsupported tool. -/
inductive ToolResult
  | ok (payload : String)
  | failure (reason : String)
  | unsupported (name : String)
  deriving DecidableEq, Repr

/-- A registered tool handler: validated arguments to a success payload or a
failure reason (spec 6, tool-handler collaborator). -/
def Handler : Type := List (String × String) → Except String String

/-- Modelled from the spec: dedup state of the Tool Dispatcher (spec 4.4):
the cache of first results keyed by invocation id, and the ids actually
dispatched, in dispatch order. -/
structure DispatchState where
  cache : List (String × ToolResult)
  dispatched : List String
  deriving DecidableEq, Repr

/-- Look up an invocation id in the result cache (first match). -/
def lookupCache (c : List (String × ToolResult)) (id : String) : Option ToolResult :=
  (c.find? fun p => p.1 == id).map (fun p => p.2)

/-- Modelled from the spec: `dispatch(invocation) → result` (spec 4.4): look
up the handler by name; unknown name yields a structured unsupported-tool
result; a handler error yields a structured failure result. -/
def dispatch (registry : List (String × Handler)) (inv : ToolInvocation) : ToolResult :=
  match registry.find? (fun p => p.1 == inv.name) with
  | none => .unsupported inv.name
  | some p =>
      match p.2 inv.args with
      | .ok payload => .ok payload
      | .error reason => .failure reason

/-- Modelled from the spec: delivery of one (possibly replayed) invocation
event (spec 4.4): a cached id is answered from the cache of the first result
without re-dispatching; a fresh id is dispatched once and cached. -/
def deliver (registry : List (String × Handler)) (st : DispatchState)
    (inv : ToolInvocation) : DispatchState × ToolResult :=
  match lookupCache st.cache inv.id with
  | some r => (st, r)
  | none =>
      let r := dispatch registry inv
      (⟨st.cache ++ [(inv.id, r)], st.dispatched ++ [inv.id]⟩, r)

/-- Deliver a list of invocation events in order. -/
def deliverAll (registry : List (String × Handler)) (st : DispatchState) :
    List ToolInvocation → DispatchState
  | [] => st
  | inv :: rest => deliverAll registry (deliver registry st inv).1 rest

/-- Modelled from the spec: `RegistryConflict` (spec 7). -/
inductive RegistryConflict
  | DuplicateCall
  deriving DecidableEq, Repr

/-- Modelled from the spec: `register(callId, session)` of the Call Registry
(spec 4.5): fails with `DuplicateCall` if the id is already present. -/
def register (reg : List (String × σ)) (callId : String) (s : σ) :
    Except RegistryConflict (List (String × σ)) :=
  if reg.any (fun p => p.1 == callId) then .error .DuplicateCall
  else .ok ((callId, s) :: reg)

/-- Modelled from the spec: `lookup(callId)` of the Call Registry (spec 4.5). -/
def lookup (reg : List (String × σ)) (callId : String) : Option σ :=
  (reg.find? fun p => p.1 == callId).map (fun p => p.2)

/-- Modelled from the spec: `unregister(callId)` of the Call Registry (spec 4.5). -/
def unregister (reg : List (String × σ)) (callId : String) : List (String × σ) :=
  reg.filter fun p => p.1 != callId

/-- Modelled from the spec: nearest-index resampling between sample rates, a
concrete stand-in for the Transcoder's rate conversion (spec 4.3); the
`libs/audio-utils` code is missing from the sources. -/
def resample (srcRate tgtRate : Nat) (xs : List Int) : List Int :=
  (List.range (xs.length * tgtRate / srcRate)).map fun i => xs.getD (i * srcRate / tgtRate) 0

/-- Modelled from the spec: the Transcoder's pure per-frame conversion
`convert(frame, sourceFormat, targetFormat)` (spec 4.3). -/
def convert (f : FrameData) (tgtRate : Nat) : FrameData :=
  ⟨resample f.rate tgtRate f.samples, tgtRate⟩

end Relay

namespace Relay

/-- Modelled from the spec: session configuration — sample rates (spec 4.3),
the bounded internal buffer capacity (spec 4.1) and the drain timeout
(spec 4.1). -/
structure Config where
  carrierRate : Nat
  modelInRate : Nat
  outboundCapacity : Nat
  drainTimeout : Nat
  deriving DecidableEq, Repr

/-- Modelled from the spec: the events that drive a Call Session (spec 4.1):
carrier transport events, model transport events, the external termination
request, the scheduler steps that deliver buffered frames, transport-closed
reports, and drain-timer ticks. -/
inductive SessionEvent
  | carrierConnected
  | modelConnected
  | carrierFrame (f : FrameData) (callerSpeech : Bool)
  | carrierEndOfCall
  | carrierError (reason : String)
  | modelAudio (f : FrameData)
  | modelTurnComplete
  | modelError (reason : String)
  | toolEvent (inv : ToolInvocation)
  | terminationRequest (reason : Option String)
  | deliverInbound
  | deliverOutbound
  | carrierClosed
  | modelClosed
  | drainTick
  deriving DecidableEq, Repr

/-- Modelled from the spec: the full state of one Call Session (spec 3, 4.1,
4.2, 5): lifecycle and turn state, the two internal frame buffers, delivery
logs for both transports, the dispatcher dedup state and tool-result log, the
recorded failure reason, transport-closed flags, the drain tick counter, the
barge-in generation counter and stop-generation signal count, and the
terminal audit outcome. -/
structure SessionState where
  lifecycle : LifecycleState
  turn : TurnState
  carrierUp : Bool
  modelUp : Bool
  inBuf : List FrameData
  outBuf : List TaggedFrame
  nextSeq : Nat
  generation : Nat
  stopSignals : Nat
  toModelLog : List FrameData
  toCarrierLog : List TaggedFrame
  toolState : DispatchState
  toolLog : List (String × ToolResult)
  hadResult : Bool
  failureReason : Option String
  carrierClosed : Bool
  modelClosed : Bool
  drainTicks : Nat
  outcome : Option CallOutcome
  deriving DecidableEq, Repr

/-- Modelled from the spec: the derived terminal outcome (spec 3, 7): a
recorded failure reason gives `failed(reason)`, otherwise a successful tool
result distinguishes completed-with-result from completed-without-result. -/
def mkOutcome (s : SessionState) : CallOutcome :=
  match s.failureReason with
  | some r => .failed r
  | none => if s.hadResult then .completedWithResult else .completedWithoutResult

/-- Modelled from the spec: the terminal transition (spec 4.1): the audit
outcome is recorded exactly here. -/
def terminate (s : SessionState) : SessionState :=
  { s with lifecycle := .Terminated, outcome := some (mkOutcome s) }

/-- Modelled from the spec: entry into `Draining` (spec 4.1): the first
recorded failure reason is kept, the drain timer restarts. -/
def toDraining (s : SessionState) (reason : Option String) : SessionState :=
  { s with lifecycle := .Draining, drainTicks := 0,
           failureReason := match s.failureReason with
             | some r => some r
             | none => reason }

/-- Modelled from the spec: non-blocking handoff of a carrier frame to the
bounded inbound buffer with the oldest-frame-drop policy (spec 4.1). -/
def enqueueIn (cfg : Config) (s : SessionState) (f : FrameData) : SessionState :=
  let buf := s.inBuf ++ [f]
  { s with inBuf := if cfg.outboundCapacity < buf.length
                    then buf.drop (buf.length - cfg.outboundCapacity) else buf }

/-- Modelled from the spec: queue one transcoded agent frame toward the
carrier, tagged with a fresh sequence number (spec 4.2, 9). -/
def enqueueOut (cfg : Config) (s : SessionState) (f : FrameData) : SessionState :=
  { s with outBuf := s.outBuf ++ [⟨s.nextSeq, convert f cfg.carrierRate⟩],
           nextSeq := s.nextSeq + 1 }

/-- Modelled from the spec: barge-in (spec 4.2): on caller speech while the
agent is speaking, set `CallerSpeaking`, discard the whole outbound-to-carrier
buffer, bump the cancellation generation and signal the model to stop. -/
def applyTurnOnCallerFrame (s : SessionState) (callerSpeech : Bool) : SessionState :=
  if callerSpeech then
    match s.turn with
    | .AgentSpeaking =>
        { s with turn := .CallerSpeaking, outBuf := [],
                 generation := s.generation + 1, stopSignals := s.stopSignals + 1 }
    | .Idle => { s with turn := .CallerSpeaking }
    | .CallerSpeaking => s
  else s

/-- Modelled from the spec: route one tool-invocation event through the
Dispatcher (spec 4.1, 4.4): the result is logged and a success marks the call
as having a result; the session lifecycle is untouched. -/
def applyToolEvent (registry : List (String × Handler)) (s : SessionState)
    (inv : ToolInvocation) : SessionState :=
  let dr := deliver registry s.toolState inv
  { s with toolState := dr.1,
           toolLog := s.toolLog ++ [(inv.id, dr.2)],
           hadResult := s.hadResult || (match dr.2 with | .ok _ => true | _ => false) }

/-- Modelled from the spec: pop the head of the inbound buffer, transcode it
to the model input format and deliver it to the model transport (spec 2, 4.1). -/
def applyDeliverInbound (cfg : Config) (s : SessionState) : SessionState :=
  match s.inBuf with
  | [] => s
  | f :: rest =>
      { s with inBuf := rest, toModelLog := s.toModelLog ++ [convert f cfg.modelInRate] }

/-- Modelled from the spec: pop the head of the outbound-to-carrier buffer
and deliver it to the carrier transport (spec 2, 4.1). -/
def applyDeliverOutbound (s : SessionState) : SessionState :=
  match s.outBuf with
  | [] => s
  | g :: rest => { s with outBuf := rest, toCarrierLog := s.toCarrierLog ++ [g] }

/-- Modelled from the spec: event handling in `Connecting` (spec 4.1): no
audio is forwarded; the session activates once both transports are up;
errors, end-of-call and termination requests drain. -/
def stepConnecting (s : SessionState) (e : SessionEvent) : SessionState :=
  match e with
  | .carrierConnected =>
      if s.modelUp then { s with carrierUp := true, lifecycle := .Active }
      else { s with carrierUp := true }
  | .modelConnected =>
      if s.carrierUp then { s with modelUp := true, lifecycle := .Active }
      else { s with modelUp := true }
  | .carrierFrame _ _ => s
  | .carrierEndOfCall => toDraining s none
  | .carrierError r => toDraining s (some r)
  | .modelAudio _ => s
  | .modelTurnComplete => s
  | .modelError r => toDraining s (some r)
  | .toolEvent _ => s
  | .terminationRequest r => toDraining s r
  | .deliverInbound => s
  | .deliverOutbound => s
  | .carrierClosed => { s with carrierClosed := true }
  | .modelClosed => { s with modelClosed := true }
  | .drainTick => s

/-- Modelled from the spec: event handling in `Active` (spec 4.1, 4.2):
bidirectional relay, barge-in on caller speech, tool routing; transport
errors or end-of-call drain the session. -/
def stepActive (cfg : Config) (registry : List (String × Handler))
    (s : SessionState) (e : SessionEvent) : SessionState :=
  match e with
  | .carrierConnected => s
  | .modelConnected => s
  | .carrierFrame f sp =>
      let t := applyTurnOnCallerFrame s sp
      if f.samples.isEmpty then t else enqueueIn cfg t f
  | .carrierEndOfCall => toDraining s none
  | .carrierError r => toDraining s (some r)
  | .modelAudio f =>
      if f.samples.isEmpty then s
      else enqueueOut cfg (if s.turn = .Idle then { s with turn := .AgentSpeaking } else s) f
  | .modelTurnComplete =>
      if s.turn = .AgentSpeaking then { s with turn := .Idle } else s
  | .modelError r => toDraining s (some r)
  | .toolEvent inv => applyToolEvent registry s inv
  | .terminationRequest r => toDraining s r
  | .deliverInbound => applyDeliverInbound cfg s
  | .deliverOutbound => applyDeliverOutbound s
  | .carrierClosed => toDraining { s with carrierClosed := true } (some "carrier_disconnected")
  | .modelClosed => toDraining { s with modelClosed := true } (some "model_disconnected")
  | .drainTick => s

/-- Modelled from the spec: event handling in `Draining` (spec 4.1): buffers
are flushed, no new audio is accepted, tool events are still routed; the
session terminates once both transports report closed, or by force when the
drain timeout elapses, discarding the remaining buffers. -/
def stepDraining (cfg : Config) (registry : List (String × Handler))
    (s : SessionState) (e : SessionEvent) : SessionState :=
  match e with
  | .carrierConnected => s
  | .modelConnected => s
  | .carrierFrame _ _ => s
  | .carrierEndOfCall => s
  | .carrierError r => toDraining s (some r)
  | .modelAudio _ => s
  | .modelTurnComplete => s
  | .modelError r => toDraining s (some r)
  | .toolEvent inv => applyToolEvent registry s inv
  | .terminationRequest _ => s
  | .deliverInbound => applyDeliverInbound cfg s
  | .deliverOutbound => applyDeliverOutbound s
  | .carrierClosed =>
      if s.modelClosed then terminate { s with carrierClosed := true }
      else { s with carrierClosed := true }
  | .modelClosed =>
      if s.carrierClosed then terminate { s with modelClosed := true }
      else { s with modelClosed := true }
  | .drainTick =>
      if cfg.drainTimeout ≤ s.drainTicks + 1 then
        terminate { s with drainTicks := s.drainTicks + 1, inBuf := [], outBuf := [] }
      else { s with drainTicks := s.drainTicks + 1 }

/-- Modelled from the spec: one step of the Call Session's serialized event
loop (spec 4.1, 4.2, 5, 9), dispatching on the lifecycle state; `Terminated`
processes nothing. -/
def stepAux (cfg : Config) (registry : List (String × Handler))
    (l : LifecycleState) (s : SessionState) (e : SessionEvent) : SessionState :=
  match l with
  | .Terminated => s
  | .Connecting => stepConnecting s e
  | .Active => stepActive cfg registry s e
  | .Draining => stepDraining cfg registry s e

/-- One step of the session event loop. -/
def step (cfg : Config) (registry : List (String × Handler))
    (s : SessionState) (e : SessionEvent) : SessionState :=
  stepAux cfg registry s.lifecycle s e

/-- Run the session event loop over a list of events. -/
def run (cfg : Config) (registry : List (String × Handler))
    (s : SessionState) : List SessionEvent → SessionState
  | [] => s
  | e :: es => run cfg registry (step cfg registry s e) es

/-- The carrier frames one event contributes while the session is `Active`
and the frame is well-formed (spec 4.1, 4.3). -/
def acceptedOf (s : SessionState) (e : SessionEvent) : List FrameData :=
  match e with
  | .carrierFrame f _ =>
      if s.lifecycle = .Active then (if f.samples.isEmpty then [] else [f]) else []
  | _ => []

/-- The carrier frames a run accepts, in receipt order. -/
def acceptedFrames (cfg : Config) (registry : List (String × Handler))
    (s : SessionState) : List SessionEvent → List FrameData
  | [] => []
  | e :: es => acceptedOf s e ++ acceptedFrames cfg registry (step cfg registry s e) es

end Relay

namespace Relay

/-- After `unregister callId` no entry with that id remains. -/
theorem unregister_clears (reg : List (String × σ)) (callId : String) :
    (unregister reg callId).any (fun p => p.1 == callId) = false := by
  rw [List.any_eq_false]
  intro x hx
  rw [unregister, List.mem_filter] at hx
  simp only [bne_iff_ne, ne_eq] at hx
  simp only [beq_iff_eq]
  exact hx.2

/-- C5: `register(callId, session)` fails with `DuplicateCall` when `callId`
is already registered, and after `unregister(callId)` the same id registers
again successfully. -/
theorem register_enforces_unique_call (reg : List (String × Nat)) (callId : String)
    (s₁ s₂ : Nat) (reg₁ : List (String × Nat))
    (h : register reg callId s₁ = .ok reg₁) :
    register reg₁ callId s₂ = .error .DuplicateCall ∧
    register (unregister reg₁ callId) callId s₂ = .ok ((callId, s₂) :: unregister reg₁ callId) := by
  rw [register] at h
  split at h
  · exact absurd h (by simp)
  · have hreg : (callId, s₁) :: reg = reg₁ := by
      injection h
    subst hreg
    constructor
    · rw [register]
      simp
    · rw [register, unregister_clears]
      simp

/-- Witness for C5 at call id "CA123". -/
theorem register_enforces_unique_call_witness :
    register ([("CA123", 1)] : List (String × Nat)) "CA123" 2 = .error .DuplicateCall :=
  (register_enforces_unique_call [] "CA123" 1 2 [("CA123", 1)] rfl).1

end Relay

namespace Relay

/-- Looking up in a cache extended by one entry. -/
theorem lookupCache_append (c : List (String × ToolResult)) (k : String)
    (v : ToolResult) (id : String) :
    lookupCache (c ++ [(k, v)]) id =
      match lookupCache c id with
      | some r => some r
      | none => if k == id then some v else none := by
  rw [lookupCache, List.find?_append]
  cases hc : c.find? (fun p => p.1 == id) with
  | some p => simp [lookupCache, hc, Option.or]
  | none =>
      simp only [lookupCache, hc, Option.or, Option.map_none]
      by_cases hk : (k == id) = true
      · simp [List.find?, hk]
      · simp only [Bool.not_eq_true] at hk
        simp [List.find?, hk]

/-- The cache after delivering a list of invocation events: a cached id keeps
its value; a fresh id gets the dispatch result of its first occurrence. -/
theorem deliverAll_cache (registry : List (String × Handler))
    (invs : List ToolInvocation) :
    ∀ (st : DispatchState) (id : String),
      lookupCache (deliverAll registry st invs).cache id =
        match lookupCache st.cache id with
        | some r => some r
        | none => (invs.find? (fun i => i.id == id)).map (dispatch registry) := by
  induction invs with
  | nil =>
      intro st id
      simp only [deliverAll, List.find?]
      cases lookupCache st.cache id <;> simp
  | cons inv rest ih =>
      intro st id
      rw [deliverAll, deliver]
      cases hc : lookupCache st.cache inv.id with
      | some r =>
          simp only
          rw [ih st id]
          by_cases hid : (inv.id == id) = true
          · have : inv.id = id := by exact beq_iff_eq.mp hid
            subst this
            simp [hc, List.find?, hid]
          · simp only [Bool.not_eq_true] at hid
            simp [List.find?, hid]
      | none =>
          simp only
          rw [ih _ id]
          simp only [lookupCache_append]
          by_cases hid : (inv.id == id) = true
          · have heq : inv.id = id := beq_iff_eq.mp hid
            subst heq
            simp [hc, List.find?]
          · simp only [Bool.not_eq_true] at hid
            have hne : ¬ inv.id = id := by
              intro h; rw [h] at hid; simp at hid
            cases h2 : lookupCache st.cache id <;>
              simp [List.find?, hid, h2]

end Relay

namespace Relay

/-- Dispatcher dedup invariant: dispatched ids are distinct and are exactly
the cached ids. -/
def GoodDisp (st : DispatchState) : Prop :=
  st.dispatched.Nodup ∧ ∀ id, id ∈ st.dispatched ↔ (lookupCache st.cache id).isSome

/-- One delivery preserves the dedup invariant. -/
theorem deliver_good (registry : List (String × Handler)) (st : DispatchState)
    (inv : ToolInvocation) (h : GoodDisp st) : GoodDisp (deliver registry st inv).1 := by
  obtain ⟨hnd, hiff⟩ := h
  rw [deliver]
  cases hc : lookupCache st.cache inv.id with
  | some r => exact ⟨hnd, hiff⟩
  | none =>
      simp only
      have hnotmem : inv.id ∉ st.dispatched := by
        rw [hiff, hc]
        simp
      constructor
      · rw [List.nodup_append]
        exact ⟨hnd, List.nodup_singleton _, by
          intro a ha hb
          simp only [List.mem_singleton] at hb
          subst hb
          exact hnotmem ha⟩
      · intro id
        rw [List.mem_append, List.mem_singleton, hiff, lookupCache_append]
        cases h2 : lookupCache st.cache id with
        | some r => simp
        | none =>
            simp only [Option.isSome_none, Bool.false_eq_true, false_or]
            by_cases hid : inv.id = id
            · subst hid; simp
            · have hb : (inv.id == id) = false := by
                simp [hid]
              simp only [hb, if_false, Option.isSome_none, Bool.false_eq_true,
                iff_false]
              intro h
              exact hid h.symm

end Relay

namespace Relay

/-- Delivering a list of events preserves the dedup invariant. -/
theorem deliverAll_good (registry : List (String × Handler))
    (invs : List ToolInvocation) :
    ∀ st : DispatchState, GoodDisp st → GoodDisp (deliverAll registry st invs) := by
  induction invs with
  | nil => intro st h; exact h
  | cons inv rest ih =>
      intro st h
      exact ih _ (deliver_good registry st inv h)

/-- C3: starting from the empty dispatcher state, every `ToolInvocation` id
is dispatched at most once even when its event is delivered several times;
the cache holds the dispatch result of the first event with each id; and an
id already in the cache is answered from the cache with no state change. -/
theorem tool_dispatch_idempotent (registry : List (String × Handler))
    (invs : List ToolInvocation) :
    (∀ id, (deliverAll registry ⟨[], []⟩ invs).dispatched.count id ≤ 1) ∧
    (∀ id, lookupCache (deliverAll registry ⟨[], []⟩ invs).cache id =
        (invs.find? (fun i => i.id == id)).map (dispatch registry)) ∧
    (∀ (inv : ToolInvocation) (r : ToolResult),
        lookupCache (deliverAll registry ⟨[], []⟩ invs).cache inv.id = some r →
        deliver registry (deliverAll registry ⟨[], []⟩ invs) inv =
          (deliverAll registry ⟨[], []⟩ invs, r)) := by
  have hgood : GoodDisp (deliverAll registry ⟨[], []⟩ invs) := by
    refine deliverAll_good registry invs _ ⟨List.nodup_nil, ?_⟩
    intro id
    simp [lookupCache, List.find?]
  refine ⟨?_, ?_, ?_⟩
  · exact fun id => List.nodup_iff_count_le_one.mp hgood.1 id
  · intro id
    rw [deliverAll_cache registry invs ⟨[], []⟩ id]
    simp [lookupCache, List.find?]
  · intro inv r h
    rw [deliver, h]

/-- Witness registry for C3: one handler, `save_booking`, always succeeding. -/
def registryW : List (String × Handler) :=
  [("save_booking", fun _ => .ok "saved")]

/-- Witness invocation for C3, delivered twice. -/
def invW : ToolInvocation := ⟨"i1", "save_booking", []⟩

/-- Witness for C3: after the event for id "i1" is delivered twice, a third
delivery of the same id changes nothing and is answered from the cache. -/
theorem tool_dispatch_idempotent_witness :
    deliver registryW (deliverAll registryW ⟨[], []⟩ [invW, invW]) invW =
      (deliverAll registryW ⟨[], []⟩ [invW, invW], .ok "saved") :=
  (tool_dispatch_idempotent registryW [invW, invW]).2.2 invW (.ok "saved") rfl

end Relay

namespace Relay

/-- C4: an unknown tool name dispatches to a structured unsupported-tool
result and a handler error to a structured failure result with its reason;
a tool event never changes the session lifecycle; and after an unsupported
invocation in an `Active` call, a subsequent valid invocation in the same
call still succeeds, with both structured results on the tool log. -/
theorem tool_errors_recovered_without_teardown
    (cfg : Config) (registry : List (String × Handler)) (s : SessionState)
    (inv₁ inv₂ : ToolInvocation) (nm : String) (hdl : Handler) (payload : String)
    (hunknown : registry.find? (fun p => p.1 == inv₁.name) = none)
    (hfound : registry.find? (fun p => p.1 == inv₂.name) = some (nm, hdl))
    (hok : hdl inv₂.args = .ok payload)
    (hActive : s.lifecycle = .Active)
    (hc1 : lookupCache s.toolState.cache inv₁.id = none)
    (hc2 : lookupCache s.toolState.cache inv₂.id = none)
    (hne : inv₁.id ≠ inv₂.id) :
    dispatch registry inv₁ = .unsupported inv₁.name ∧
    (∀ (inv : ToolInvocation) (h : Handler) (n reason : String),
        registry.find? (fun p => p.1 == inv.name) = some (n, h) →
        h inv.args = .error reason → dispatch registry inv = .failure reason) ∧
    (∀ (t : SessionState) (inv : ToolInvocation),
        (step cfg registry t (.toolEvent inv)).lifecycle = t.lifecycle) ∧
    (run cfg registry s [.toolEvent inv₁, .toolEvent inv₂]).lifecycle = .Active ∧
    (run cfg registry s [.toolEvent inv₁, .toolEvent inv₂]).toolLog =
      s.toolLog ++ [(inv₁.id, .unsupported inv₁.name), (inv₂.id, .ok payload)] := by
  have h1 : dispatch registry inv₁ = .unsupported inv₁.name := by
    rw [dispatch, hunknown]
  have h2 : dispatch registry inv₂ = .ok payload := by
    rw [dispatch, hfound]
    simp [hok]
  have hstep1 : step cfg registry s (.toolEvent inv₁) = applyToolEvent registry s inv₁ := by
    simp [step, hActive, stepAux, stepActive]
  have hA1 : applyToolEvent registry s inv₁ =
      { s with toolState := ⟨s.toolState.cache ++ [(inv₁.id, .unsupported inv₁.name)],
                             s.toolState.dispatched ++ [inv₁.id]⟩,
               toolLog := s.toolLog ++ [(inv₁.id, .unsupported inv₁.name)] } := by
    rw [applyToolEvent, deliver, hc1]
    simp [h1]
  have hlook2 : lookupCache (s.toolState.cache ++ [(inv₁.id, ToolResult.unsupported inv₁.name)])
      inv₂.id = none := by
    rw [lookupCache_append, hc2]
    simp [hne]
  refine ⟨h1, ?_, ?_, ?_, ?_⟩
  · intro inv h n reason hf he
    rw [dispatch, hf]
    simp [he]
  · intro t inv
    cases ht : t.lifecycle <;>
      simp [step, ht, stepAux, stepConnecting, stepActive, stepDraining, applyToolEvent]
  · simp only [run, hstep1, hA1]
    simp [step, stepAux, stepActive, applyToolEvent, hActive]
  · simp only [run, hstep1, hA1]
    simp only [step, hActive, stepAux, stepActive, applyToolEvent, deliver, hlook2, h2]
    simp

end Relay

namespace Relay

/-- Witness configuration (8kHz carrier, 16kHz model input, small buffers). -/
def cfgW : Config := ⟨8000, 16000, 8, 5⟩

/-- Witness session state: freshly activated call, everything empty. -/
def sessionW : SessionState :=
  ⟨.Active, .Idle, true, true, [], [], 0, 0, 0, [], [], ⟨[], []⟩, [], false,
   none, false, false, 0, none⟩

/-- Witness for C4: in an active call, an unrecognized tool name followed by
a valid `save_booking` invocation leaves the call `Active`. -/
theorem tool_errors_recovered_without_teardown_witness :
    (run cfgW registryW sessionW
      [.toolEvent ⟨"u1", "unknown_tool", []⟩,
       .toolEvent ⟨"v1", "save_booking", []⟩]).lifecycle = .Active :=
  (tool_errors_recovered_without_teardown cfgW registryW sessionW
    ⟨"u1", "unknown_tool", []⟩ ⟨"v1", "save_booking", []⟩
    "save_booking" (fun _ => .ok "saved") "saved"
    rfl rfl rfl rfl rfl rfl (by decide)).2.2.2.1

end Relay

namespace Relay

/-- The inbound frames one event delivers to the model transport. -/
def inboundDeliveredOf (s : SessionState) (e : SessionEvent) : List FrameData :=
  match e with
  | .deliverInbound =>
      if s.lifecycle = .Active ∨ s.lifecycle = .Draining then s.inBuf.take 1 else []
  | _ => []

/-- Barge-in handling touches neither the inbound buffer nor the model log. -/
theorem applyTurn_fields (s : SessionState) (sp : Bool) :
    (applyTurnOnCallerFrame s sp).inBuf = s.inBuf ∧
    (applyTurnOnCallerFrame s sp).toModelLog = s.toModelLog := by
  rw [applyTurnOnCallerFrame]
  split
  · split <;> simp
  · simp

/-- Enqueueing an inbound frame keeps the model log and yields a buffer that
is an order-preserving selection from the old buffer plus the new frame. -/
theorem enqueueIn_fields (cfg : Config) (t : SessionState) (f : FrameData) :
    (enqueueIn cfg t f).toModelLog = t.toModelLog ∧
    List.Sublist (enqueueIn cfg t f).inBuf (t.inBuf ++ [f]) := by
  rw [enqueueIn]
  refine ⟨rfl, ?_⟩
  dsimp only
  split
  · exact List.drop_sublist _ _
  · exact List.Sublist.refl _

/-- One step appends exactly the delivered inbound frames (transcoded) to the
model-transport log, and the delivered-then-buffered inbound frames are an
order-preserving selection from the previously buffered and newly accepted
carrier frames. -/
theorem step_inbound (cfg : Config) (registry : List (String × Handler))
    (s : SessionState) (e : SessionEvent) :
    (step cfg registry s e).toModelLog =
        s.toModelLog ++ (inboundDeliveredOf s e).map (fun f => convert f cfg.modelInRate) ∧
    List.Sublist ((inboundDeliveredOf s e) ++ (step cfg registry s e).inBuf)
      (s.inBuf ++ acceptedOf s e) := by
  cases hl : s.lifecycle <;> cases e <;>
    simp only [step, stepAux, hl, stepConnecting, stepActive, stepDraining,
      inboundDeliveredOf, acceptedOf, applyDeliverInbound, applyDeliverOutbound,
      applyToolEvent, toDraining, terminate] <;>
    try simp [List.sublist_append_left, List.Sublist.refl]
  case Connecting.carrierConnected =>
    split <;> simp [List.Sublist.refl]
  case Connecting.modelConnected =>
    split <;> simp [List.Sublist.refl]
  case Active.carrierFrame f sp =>
    have h1 := applyTurn_fields s sp
    have h2 := enqueueIn_fields cfg (applyTurnOnCallerFrame s sp) f
    by_cases hf : f.samples = []
    · simp [hf, h1.1, h1.2, List.Sublist.refl]
    · rw [h1.1] at h2
      simp [hf, h2.1, h1.2, h2.2]
  case Active.modelAudio f =>
    by_cases hf : f.samples = []
    · simp [hf, List.Sublist.refl]
    · by_cases ht : s.turn = .Idle <;>
        simp [hf, ht, enqueueOut, List.Sublist.refl]
  case Active.modelTurnComplete =>
    split <;> simp [List.Sublist.refl]
  case Active.deliverInbound =>
    cases hb : s.inBuf <;> simp [applyDeliverInbound, hb, List.Sublist.refl]
  case Active.deliverOutbound =>
    cases hb : s.outBuf <;> simp [applyDeliverOutbound, hb, List.Sublist.refl]
  case Draining.deliverInbound =>
    cases hb : s.inBuf <;> simp [applyDeliverInbound, hb, List.Sublist.refl]
  case Draining.deliverOutbound =>
    cases hb : s.outBuf <;> simp [applyDeliverOutbound, hb, List.Sublist.refl]
  case Draining.carrierClosed =>
    split <;> simp [terminate, List.Sublist.refl]
  case Draining.modelClosed =>
    split <;> simp [terminate, List.Sublist.refl]
  case Draining.drainTick =>
    split <;> simp [terminate, List.Sublist.refl, List.nil_sublist]

end Relay

namespace Relay

/-- Over a whole run, the model-transport log grows by the transcodings of an
order-preserving selection of the buffered and accepted carrier frames. -/
theorem run_inbound (cfg : Config) (registry : List (String × Handler)) :
    ∀ (events : List SessionEvent) (s : SessionState),
    ∃ sub : List FrameData,
      List.Sublist sub (s.inBuf ++ acceptedFrames cfg registry s events) ∧
      (run cfg registry s events).toModelLog =
        s.toModelLog ++ sub.map (fun f => convert f cfg.modelInRate) := by
  intro events
  induction events with
  | nil =>
      intro s
      exact ⟨[], List.nil_sublist _, by simp [run]⟩
  | cons e es ih =>
      intro s
      obtain ⟨sub, hsub, hlog⟩ := ih (step cfg registry s e)
      obtain ⟨hstep_log, hstep_sub⟩ := step_inbound cfg registry s e
      refine ⟨inboundDeliveredOf s e ++ sub, ?_, ?_⟩
      · have h1 : List.Sublist (inboundDeliveredOf s e ++ sub)
            ((inboundDeliveredOf s e ++ (step cfg registry s e).inBuf) ++
              acceptedFrames cfg registry (step cfg registry s e) es) := by
          rw [List.append_assoc]
          exact List.Sublist.append (List.Sublist.refl _) hsub
        have h2 : List.Sublist
            ((inboundDeliveredOf s e ++ (step cfg registry s e).inBuf) ++
              acceptedFrames cfg registry (step cfg registry s e) es)
            ((s.inBuf ++ acceptedOf s e) ++
              acceptedFrames cfg registry (step cfg registry s e) es) :=
          List.Sublist.append hstep_sub (List.Sublist.refl _)
        have h3 := h1.trans h2
        rw [acceptedFrames, ← List.append_assoc]
        exact h3
      · rw [run, hlog, hstep_log, List.append_assoc, ← List.map_append]

/-- C6: every carrier frame forwarded to the model transport during a run is
the transcoding of one accepted carrier frame, and the forwarded sequence is
an order-preserving selection of the accepted frames: no reordering, and no
merging of frames (each forwarded frame maps to exactly one received frame;
one session handles exactly one call, so no cross-call mixing can occur). -/
theorem carrier_frames_relayed_in_order (cfg : Config)
    (registry : List (String × Handler)) (s : SessionState)
    (events : List SessionEvent) (h : s.inBuf = []) :
    ∃ sub : List FrameData,
      List.Sublist sub (acceptedFrames cfg registry s events) ∧
      (run cfg registry s events).toModelLog =
        s.toModelLog ++ sub.map (fun f => convert f cfg.modelInRate) := by
  obtain ⟨sub, hs, hl⟩ := run_inbound cfg registry events s
  rw [h, List.nil_append] at hs
  exact ⟨sub, hs, hl⟩

/-- Witness for C6: two frames received in an active session and both
delivered to the model transport. -/
theorem carrier_frames_relayed_in_order_witness :
    ∃ sub : List FrameData,
      List.Sublist sub (acceptedFrames cfgW registryW sessionW
        [.carrierFrame ⟨[1], 8000⟩ false, .carrierFrame ⟨[2], 8000⟩ false,
         .deliverInbound, .deliverInbound]) ∧
      (run cfgW registryW sessionW
        [.carrierFrame ⟨[1], 8000⟩ false, .carrierFrame ⟨[2], 8000⟩ false,
         .deliverInbound, .deliverInbound]).toModelLog =
        sessionW.toModelLog ++ sub.map (fun f => convert f cfgW.modelInRate) :=
  carrier_frames_relayed_in_order cfgW registryW sessionW
    [.carrierFrame ⟨[1], 8000⟩ false, .carrierFrame ⟨[2], 8000⟩ false,
     .deliverInbound, .deliverInbound] rfl

end Relay

namespace Relay

/-- Barge-in handling only discards outbound frames: the carrier log and the
sequence counter are untouched, and every surviving buffered frame was
already buffered. -/
theorem applyTurn_out (s : SessionState) (sp : Bool) :
    (applyTurnOnCallerFrame s sp).toCarrierLog = s.toCarrierLog ∧
    (applyTurnOnCallerFrame s sp).nextSeq = s.nextSeq ∧
    (∀ g ∈ (applyTurnOnCallerFrame s sp).outBuf, g ∈ s.outBuf) := by
  rw [applyTurnOnCallerFrame]
  split
  · split <;> simp
  · simp

/-- One step only appends already-buffered frames to the carrier log, keeps
or freshly tags buffered outbound frames, and never decreases the sequence
counter. -/
theorem step_outbound (cfg : Config) (registry : List (String × Handler))
    (s : SessionState) (e : SessionEvent) :
    (∃ d : List TaggedFrame,
        (step cfg registry s e).toCarrierLog = s.toCarrierLog ++ d ∧
        ∀ g ∈ d, g ∈ s.outBuf) ∧
    (∀ g ∈ (step cfg registry s e).outBuf, g ∈ s.outBuf ∨ s.nextSeq ≤ g.seq) ∧
    s.nextSeq ≤ (step cfg registry s e).nextSeq := by
  cases hl : s.lifecycle <;> cases e <;>
    simp only [step, stepAux, hl, stepConnecting, stepActive, stepDraining,
      toDraining, terminate, applyToolEvent, applyDeliverInbound,
      applyDeliverOutbound]
  all_goals try exact ⟨⟨[], by simp, by simp⟩, fun g hg => Or.inl hg, le_refl _⟩
  case Connecting.carrierConnected =>
    split <;> exact ⟨⟨[], by simp, by simp⟩, fun g hg => Or.inl hg, le_refl _⟩
  case Connecting.modelConnected =>
    split <;> exact ⟨⟨[], by simp, by simp⟩, fun g hg => Or.inl hg, le_refl _⟩
  case Active.carrierFrame f sp =>
    obtain ⟨ht1, ht2, ht3⟩ := applyTurn_out s sp
    by_cases hf : f.samples.isEmpty = true <;>
      simp only [hf, if_true, if_false, Bool.false_eq_true, enqueueIn] <;>
      exact ⟨⟨[], by simp [ht1], by simp⟩,
        fun g hg => Or.inl (ht3 g hg), le_of_eq ht2.symm⟩
  case Active.modelAudio f =>
    by_cases hf : f.samples.isEmpty = true
    · simp only [hf, if_true]
      exact ⟨⟨[], by simp, by simp⟩, fun g hg => Or.inl hg, le_refl _⟩
    · simp only [hf, Bool.false_eq_true, if_false, enqueueOut]
      by_cases ht : s.turn = .Idle <;>
        simp only [ht, if_true, if_false] <;>
        refine ⟨⟨[], by simp, by simp⟩, ?_, by simp⟩ <;>
        · intro g hg
          simp only [List.mem_append, List.mem_singleton] at hg
          rcases hg with hg | hg
          · exact Or.inl hg
          · subst hg
            exact Or.inr (le_refl _)
  case Active.modelTurnComplete =>
    split <;> exact ⟨⟨[], by simp, by simp⟩, fun g hg => Or.inl hg, le_refl _⟩
  case Active.deliverOutbound =>
    split
    · exact ⟨⟨[], by simp, by simp⟩, fun g hg => Or.inl hg, le_refl _⟩
    · next g rest heq =>
        refine ⟨⟨[g], by simp, by simp [heq]⟩, ?_, le_refl _⟩
        intro g2 hg2
        exact Or.inl (by rw [heq]; exact List.mem_cons_of_mem _ hg2)
  case Draining.deliverOutbound =>
    split
    · exact ⟨⟨[], by simp, by simp⟩, fun g hg => Or.inl hg, le_refl _⟩
    · next g rest heq =>
        refine ⟨⟨[g], by simp, by simp [heq]⟩, ?_, le_refl _⟩
        intro g2 hg2
        exact Or.inl (by rw [heq]; exact List.mem_cons_of_mem _ hg2)
  case Draining.carrierClosed =>
    split <;> exact ⟨⟨[], by simp, by simp⟩, fun g hg => Or.inl hg, le_refl _⟩
  case Draining.modelClosed =>
    split <;> exact ⟨⟨[], by simp, by simp⟩, fun g hg => Or.inl hg, le_refl _⟩
  case Active.deliverInbound =>
    split
    · exact ⟨⟨[], by simp, by simp⟩, fun g hg => Or.inl hg, le_refl _⟩
    · exact ⟨⟨[], by simp, by simp⟩, fun g hg => Or.inl hg, le_refl _⟩
  case Draining.deliverInbound =>
    split
    · exact ⟨⟨[], by simp, by simp⟩, fun g hg => Or.inl hg, le_refl _⟩
    · exact ⟨⟨[], by simp, by simp⟩, fun g hg => Or.inl hg, le_refl _⟩
  case Draining.drainTick =>
    split
    · exact ⟨⟨[], by simp, by simp⟩, fun g hg => ((List.not_mem_nil _) hg).elim, le_refl _⟩
    · exact ⟨⟨[], by simp, by simp⟩, fun g hg => Or.inl hg, le_refl _⟩

end Relay

namespace Relay

/-- If every buffered outbound frame has sequence number at least `N` and the
counter is at least `N`, then every frame a run subsequently delivers to the
carrier has sequence number at least `N`. -/
theorem run_outbound (cfg : Config) (registry : List (String × Handler)) (N : Nat) :
    ∀ (events : List SessionEvent) (s : SessionState),
      (∀ g ∈ s.outBuf, N ≤ g.seq) → N ≤ s.nextSeq →
      ∃ d : List TaggedFrame,
        (run cfg registry s events).toCarrierLog = s.toCarrierLog ++ d ∧
        ∀ g ∈ d, N ≤ g.seq := by
  intro events
  induction events with
  | nil =>
      intro s h1 h2
      exact ⟨[], by simp [run], by simp⟩
  | cons e es ih =>
      intro s h1 h2
      obtain ⟨⟨d0, hd0, hd0mem⟩, hbuf, hseq⟩ := step_outbound cfg registry s e
      have hb2 : ∀ g ∈ (step cfg registry s e).outBuf, N ≤ g.seq := by
        intro g hg
        rcases hbuf g hg with h | h
        · exact h1 g h
        · exact le_trans h2 h
      obtain ⟨d, hd, hdmem⟩ := ih (step cfg registry s e) hb2 (le_trans h2 hseq)
      refine ⟨d0 ++ d, ?_, ?_⟩
      · rw [run, hd, hd0, List.append_assoc]
      · intro g hg
        rcases List.mem_append.mp hg with h | h
        · exact h1 g (hd0mem g h)
        · exact hdmem g h

/-- C1: zero-leak barge-in. When a carrier frame classified as caller speech
arrives while the agent is speaking in an `Active` session, no agent frame
that was buffered toward the carrier before that instant is delivered to the
carrier transport at any later point of the run. The well-formedness
hypothesis — buffered frames carry sequence numbers below the fresh counter —
holds in every reachable state by construction of `enqueueOut`. -/
theorem barge_in_zero_leak (cfg : Config) (registry : List (String × Handler))
    (s : SessionState) (f : FrameData) (events : List SessionEvent)
    (hActive : s.lifecycle = .Active) (hTurn : s.turn = .AgentSpeaking)
    (hwf : ∀ g ∈ s.outBuf, g.seq < s.nextSeq) :
    ∀ g ∈ s.outBuf,
      g ∉ (run cfg registry (step cfg registry s (.carrierFrame f true)) events).toCarrierLog.drop
            s.toCarrierLog.length := by
  have hstep : (step cfg registry s (.carrierFrame f true)).outBuf = [] ∧
      (step cfg registry s (.carrierFrame f true)).toCarrierLog = s.toCarrierLog ∧
      (step cfg registry s (.carrierFrame f true)).nextSeq = s.nextSeq := by
    simp only [step, stepAux, hActive, stepActive, applyTurnOnCallerFrame, hTurn]
    by_cases hf : f.samples.isEmpty = true <;> simp [hf, enqueueIn]
  obtain ⟨hb0, hlog0, hseq0⟩ := hstep
  obtain ⟨d, hd, hdmem⟩ := run_outbound cfg registry s.nextSeq events
    (step cfg registry s (.carrierFrame f true))
    (by rw [hb0]; intro g hg; exact absurd hg (List.not_mem_nil g))
    (le_of_eq hseq0.symm)
  intro g hg hmem
  rw [hd, hlog0, List.drop_left] at hmem
  exact absurd (hdmem g hmem) (not_le.mpr (hwf g hg))

/-- Witness session for C1: agent speaking with one buffered outbound frame. -/
def sessionBargeW : SessionState :=
  ⟨.Active, .AgentSpeaking, true, true, [], [⟨0, ⟨[5], 8000⟩⟩], 1, 0, 0, [], [],
   ⟨[], []⟩, [], false, none, false, false, 0, none⟩

/-- Witness for C1: the frame buffered before the barge-in is never delivered
afterward, even with later agent audio and delivery steps. -/
theorem barge_in_zero_leak_witness :
    (⟨0, ⟨[5], 8000⟩⟩ : TaggedFrame) ∉
      (run cfgW registryW
        (step cfgW registryW sessionBargeW (.carrierFrame ⟨[9], 8000⟩ true))
        [.deliverOutbound, .modelAudio ⟨[7], 24000⟩, .deliverOutbound,
         .deliverOutbound]).toCarrierLog.drop sessionBargeW.toCarrierLog.length :=
  barge_in_zero_leak cfgW registryW sessionBargeW ⟨[9], 8000⟩
    [.deliverOutbound, .modelAudio ⟨[7], 24000⟩, .deliverOutbound, .deliverOutbound]
    rfl rfl (by decide) ⟨0, ⟨[5], 8000⟩⟩ (by decide)

end Relay

namespace Relay

/-- A terminated session processes no further events. -/
theorem step_terminated (cfg : Config) (registry : List (String × Handler))
    (s : SessionState) (h : s.lifecycle = .Terminated) (e : SessionEvent) :
    step cfg registry s e = s := by
  simp [step, stepAux, h]

/-- A terminated session is unchanged by any further run. -/
theorem run_terminated (cfg : Config) (registry : List (String × Handler)) :
    ∀ (events : List SessionEvent) (s : SessionState),
      s.lifecycle = .Terminated → run cfg registry s events = s := by
  intro events
  induction events with
  | nil => intro s _; rfl
  | cons e es ih =>
      intro s h
      rw [run, step_terminated cfg registry s h e]
      exact ih s h

/-- `n` drain ticks terminate a draining session whose tick budget is
exhausted within `n`, discarding the outbound buffer and recording an
outcome. -/
theorem drain_ticks (cfg : Config) (registry : List (String × Handler)) :
    ∀ (n : Nat) (s : SessionState),
      s.lifecycle = .Draining → cfg.drainTimeout ≤ s.drainTicks + n → 1 ≤ n →
      (run cfg registry s (List.replicate n .drainTick)).lifecycle = .Terminated ∧
      (run cfg registry s (List.replicate n .drainTick)).outBuf = [] ∧
      ((run cfg registry s (List.replicate n .drainTick)).outcome).isSome := by
  intro n
  induction n with
  | zero => intro s _ _ h; omega
  | succ n ih =>
      intro s hd hto _
      rw [List.replicate_succ, run]
      by_cases hc : cfg.drainTimeout ≤ s.drainTicks + 1
      · have hstep : step cfg registry s .drainTick =
            terminate { s with drainTicks := s.drainTicks + 1, inBuf := [], outBuf := [] } := by
          simp [step, stepAux, hd, stepDraining, hc]
        rw [hstep, run_terminated cfg registry _ _ rfl]
        exact ⟨rfl, rfl, rfl⟩
      · have hstep : step cfg registry s .drainTick =
            { s with drainTicks := s.drainTicks + 1 } := by
          simp [step, stepAux, hd, stepDraining, hc]
        cases n with
        | zero => omega
        | succ m =>
            rw [hstep]
            exact ih { s with drainTicks := s.drainTicks + 1 } hd
              (by simp only; omega) (by omega)

/-- C7: a session that enters `Draining` and receives no further transport or
tool events reaches `Terminated` within the configured drain timeout, with
its remaining outbound buffer discarded and a `CallOutcome` recorded; once
terminated, no later event can alter the session (so, with the write-once
invariant of the audit outcome, the outcome is set exactly once). -/
theorem draining_reaches_terminated (cfg : Config)
    (registry : List (String × Handler)) (s : SessionState)
    (hd : s.lifecycle = .Draining) (ht : s.drainTicks = 0)
    (hpos : 1 ≤ cfg.drainTimeout) :
    (run cfg registry s (List.replicate cfg.drainTimeout .drainTick)).lifecycle = .Terminated ∧
    (run cfg registry s (List.replicate cfg.drainTimeout .drainTick)).outBuf = [] ∧
    ((run cfg registry s (List.replicate cfg.drainTimeout .drainTick)).outcome).isSome ∧
    (∀ more, run cfg registry
        (run cfg registry s (List.replicate cfg.drainTimeout .drainTick)) more =
      run cfg registry s (List.replicate cfg.drainTimeout .drainTick)) := by
  obtain ⟨h1, h2, h3⟩ :=
    drain_ticks cfg registry cfg.drainTimeout s hd (by omega) hpos
  exact ⟨h1, h2, h3, fun more => run_terminated cfg registry more _ h1⟩

/-- Witness session for C7: draining with a leftover buffered outbound frame
and no failure recorded. -/
def sessionDrainW : SessionState :=
  ⟨.Draining, .Idle, true, true, [], [⟨0, ⟨[5], 8000⟩⟩], 1, 0, 0, [], [],
   ⟨[], []⟩, [], false, none, false, false, 0, none⟩

/-- Witness for C7 at the concrete drain timeout of `cfgW` (5 ticks). -/
theorem draining_reaches_terminated_witness :
    (run cfgW registryW sessionDrainW
      (List.replicate cfgW.drainTimeout .drainTick)).lifecycle = .Terminated :=
  (draining_reaches_terminated cfgW registryW sessionDrainW rfl rfl (by decide)).1

end Relay

namespace Relay

/-- Modelled from the spec: the persisted call status a terminal outcome maps
to (audit sink, spec 6; `calls.status` in `init.sql:64`). -/
def statusOfOutcome : CallOutcome → String
  | .completedWithResult => "completed"
  | .completedWithoutResult => "completed"
  | .failed _ => "failed"

/-- Modelled from the spec: the persisted representation of a terminal
outcome — the `calls.status` text, the `calls.failure_reason` text, and
whether a reservation row was written (the call's result). -/
def persistOutcome : CallOutcome → String × Option String × Bool
  | .completedWithResult => ("completed", none, true)
  | .completedWithoutResult => ("completed", none, false)
  | .failed r => ("failed", some r, false)

/-- Audit-outcome invariant: unset before the terminal state, set in it. -/
def OutcomeInv (s : SessionState) : Prop :=
  (s.lifecycle ≠ .Terminated → s.outcome = none) ∧
  (s.lifecycle = .Terminated → (s.outcome).isSome = true)

/-- Every step either leaves the outcome untouched without crossing into
`Terminated`, or performs the unique terminal transition and records an
outcome. -/
theorem step_outcome_cases (cfg : Config) (registry : List (String × Handler))
    (s : SessionState) (e : SessionEvent) :
    ((step cfg registry s e).outcome = s.outcome ∧
      ((step cfg registry s e).lifecycle = .Terminated ↔ s.lifecycle = .Terminated)) ∨
    (s.lifecycle ≠ .Terminated ∧ (step cfg registry s e).lifecycle = .Terminated ∧
      ((step cfg registry s e).outcome).isSome = true) := by
  cases hl : s.lifecycle <;> cases e <;>
    simp [step, stepAux, hl, stepConnecting, stepActive, stepDraining, toDraining,
      terminate, applyToolEvent, applyDeliverInbound, applyDeliverOutbound,
      applyTurnOnCallerFrame, enqueueIn, enqueueOut] <;>
    try (split_ifs <;> simp_all)
  all_goals try (split <;> simp_all)
  all_goals try (cases s.turn <;> simp_all)
  all_goals
    (rename_i f sp
     cases sp <;> by_cases hf : f.samples = [] <;> simp_all)

end Relay

namespace Relay

/-- C2: the terminal audit record. `CallOutcome` takes exactly the three
values completed-with-result, completed-without-result and failed(reason);
the Zod `CallStatusSchema` and the SQL CHECK on `calls.status` admit the same
statuses, whose terminal part ("completed", "failed") is exactly the image of
the outcomes; the persisted representation (status, failure reason, presence
of a result) distinguishes the three outcomes; and along any execution the
outcome is written exactly once, at the transition into `Terminated`. -/
theorem call_outcome_terminal_audit (cfg : Config)
    (registry : List (String × Handler)) :
    (∀ o : CallOutcome, o = .completedWithResult ∨ o = .completedWithoutResult ∨
        ∃ r, o = .failed r) ∧
    (∀ st : String, CallStatusSchema st = callsStatusCheck st) ∧
    (∀ st : String, (callsStatusCheck st = true ∧ st ≠ "ongoing") ↔
        ∃ o : CallOutcome, statusOfOutcome o = st) ∧
    Function.Injective persistOutcome ∧
    (∀ (s : SessionState) (e : SessionEvent),
        OutcomeInv s → OutcomeInv (step cfg registry s e)) ∧
    (∀ (s : SessionState) (e : SessionEvent), OutcomeInv s →
        (step cfg registry s e).outcome ≠ s.outcome →
        s.lifecycle ≠ .Terminated ∧ (step cfg registry s e).lifecycle = .Terminated ∧
        s.outcome = none ∧ ((step cfg registry s e).outcome).isSome = true) := by
  refine ⟨?_, fun st => rfl, ?_, ?_, ?_, ?_⟩
  · intro o
    cases o with
    | completedWithResult => exact Or.inl rfl
    | completedWithoutResult => exact Or.inr (Or.inl rfl)
    | failed r => exact Or.inr (Or.inr ⟨r, rfl⟩)
  · intro st
    constructor
    · rintro ⟨h, hne⟩
      simp only [callsStatusCheck, Bool.or_eq_true, beq_iff_eq] at h
      rcases h with (h | h) | h
      · exact absurd h hne
      · exact ⟨.completedWithResult, h.symm⟩
      · exact ⟨.failed "reason", h.symm⟩
    · rintro ⟨o, rfl⟩
      cases o <;> simp [callsStatusCheck, statusOfOutcome]
  · intro a b h
    cases a <;> cases b <;> simp_all [persistOutcome]
  · intro s e hinv
    rcases step_outcome_cases cfg registry s e with ⟨ho, hiff⟩ | ⟨h1, h2, h3⟩
    · constructor
      · intro hterm
        rw [ho]
        exact hinv.1 fun h => hterm (hiff.mpr h)
      · intro hterm
        rw [ho]
        exact hinv.2 (hiff.mp hterm)
    · exact ⟨fun hn => absurd h2 hn, fun _ => h3⟩
  · intro s e hinv hne
    rcases step_outcome_cases cfg registry s e with ⟨ho, _⟩ | ⟨h1, h2, h3⟩
    · exact absurd ho hne
    · exact ⟨h1, h2, hinv.1 h1, h3⟩

/-- Witness for C2: the invariant hypotheses hold at the concrete fresh
session and are preserved through an end-of-call step. -/
theorem call_outcome_terminal_audit_witness :
    OutcomeInv (step cfgW registryW sessionW .carrierEndOfCall) :=
  (call_outcome_terminal_audit cfgW registryW).2.2.2.2.1 sessionW .carrierEndOfCall
    ⟨fun _ => rfl, fun h => absurd h (by decide)⟩

end Relay
